import Mathlib

/-!
A verification development for the `sails-redis` record-store adapter
(`lib/database/index.js`).  The adapter exposes collection-oriented CRUD
operations (configure, define, describe, drop, find, create, update,
destroy) over a key-value store, addressing records purely by primary key.

The JavaScript code is shallowly embedded: JS values are an inductive
`Value`; JS objects are association lists `JsObj`; the asynchronous
callback style is modelled by pure functions that return an outcome value
(and, for operations firing the completion callback more than once, the
list of callback invocations in order) together with the updated store
state.  A serialized payload (`JSON.stringify` output) is modelled by the
JSON document it denotes — the string rendering is in bijection with its
parse tree and the code never inspects the rendered text, so the
document itself is the faithful observable.

The collaborator modules `lib/utils.js` and `lib/database/schema.js` of
this repository are not part of the sources under verification; their
behavior is modelled from the specification and each such definition is
marked `Modelled from the spec:` in its doc comment.
-/

set_option autoImplicit false

namespace SailsRedis

/-- A JavaScript value as stored in records and criteria.  `unserializable`
stands for any value `JSON.stringify` rejects (for example a circular
structure). -/
inductive Value where
  | null
  | bool (b : Bool)
  | num (n : Int)
  | str (s : String)
  | arr (elems : List Value)
  | obj (fields : List (String × Value))
  | unserializable

mutual

/-- Structural equality test on JS values.  It models the JS strict
equality `===`/`!==` used by the code on the scalar values that occur as
primary keys (reference semantics on compound objects and the `NaN`
corner are outside the scalar domain the adapter compares). -/
def Value.beq : Value → Value → Bool
  | Value.null, Value.null => true
  | Value.bool a, Value.bool b => a == b
  | Value.num a, Value.num b => a == b
  | Value.str a, Value.str b => a == b
  | Value.arr a, Value.arr b => beqVList a b
  | Value.obj a, Value.obj b => beqVFields a b
  | Value.unserializable, Value.unserializable => true
  | _, _ => false

def beqVList : List Value → List Value → Bool
  | [], [] => true
  | a :: as, b :: bs => a.beq b && beqVList as bs
  | _, _ => false

def beqVFields : List (String × Value) → List (String × Value) → Bool
  | [], [] => true
  | (k1, v1) :: as, (k2, v2) :: bs => k1 == k2 && v1.beq v2 && beqVFields as bs
  | _, _ => false

end

/-- A JavaScript object: an association list from property name to value
(property names are unique; operations below preserve that). -/
abbrev JsObj := List (String × Value)

/-- `o[k]`: JS property read, `none` meaning `undefined`. -/
def getField : JsObj → String → Option Value
  | [], _ => none
  | kv :: o, k => if kv.1 = k then some kv.2 else getField o k

/-- `o.hasOwnProperty(k)`. -/
def hasProp (o : JsObj) (k : String) : Bool :=
  (getField o k).isSome

/-- `o[k] = v`: overwrite in place or append a new property. -/
def setField : JsObj → String → Value → JsObj
  | [], k, v => [(k, v)]
  | kv :: o, k, v => if kv.1 = k then (k, v) :: o else kv :: setField o k v

/-- `delete o[k]`. -/
def delField (o : JsObj) (k : String) : JsObj :=
  o.filter (fun kv => kv.1 ≠ k)

/-- lodash `_.extend(target, source)`: shallow merge of `source` onto
`target`, source properties overwriting. -/
def extendObj (target source : JsObj) : JsObj :=
  source.foldl (fun acc kv => setField acc kv.1 kv.2) target

/-- `Array.isArray` on a JS value that may be `undefined`. -/
def isArrayV : Option Value → Bool
  | some (Value.arr _) => true
  | _ => false

/-- Modelled from the spec: `Utils.present(value)` — the value is present,
that is neither `undefined` nor `null` nor the empty string. -/
def present : Option Value → Bool
  | none => false
  | some Value.null => false
  | some (Value.str s) => s ≠ ""
  | some _ => true

/-- Modelled from the spec: `Utils.count(where)` — the number of
conditions (own properties) in a criteria's `where` clause.  A JS
object's property names are unique, so this is the length of the
association list. -/
def count (o : JsObj) : Nat :=
  o.length

/-- JS `String.prototype.toLowerCase()` on the ASCII collection names the
adapter handles (character-by-character lower-casing). -/
def jsToLower (s : String) : String :=
  String.mk (s.toList.map Char.toLower)

/-- Trim leading and trailing whitespace (the trimming JS `ToNumber`
applies to a numeric string). -/
def strTrim (s : String) : List Char :=
  ((s.toList.dropWhile Char.isWhitespace).reverse.dropWhile Char.isWhitespace).reverse

/-- Read a decimal digit string. -/
def natOfDigits : List Char → Option Nat
  | [] => none
  | ds =>
    ds.foldl (fun acc c =>
      match acc with
      | none => none
      | some n => if c.isDigit then some (n * 10 + (c.toNat - '0'.toNat)) else none)
      (some 0)

/-- Read an optionally signed integral decimal string; `none` models
`NaN`. -/
def intOfChars : List Char → Option Int
  | '-' :: ds => (natOfDigits ds).map (fun n => -(n : Int))
  | '+' :: ds => (natOfDigits ds).map (fun n => (n : Int))
  | ds => (natOfDigits ds).map (fun n => (n : Int))

/-- JS strict comparison `a === b` on possibly-absent property reads
(`none` = `undefined`); the negation `!== ` is `!optValBeq a b`. -/
def optValBeq : Option Value → Option Value → Bool
  | none, none => true
  | some a, some b => a.beq b
  | _, _ => false

mutual

/-- String conversion applied by JS string concatenation (as in building a
storage key from a primary-key value). -/
def Value.jsToString : Value → String
  | Value.null => "null"
  | Value.bool b => cond b "true" "false"
  | Value.num n => toString n
  | Value.str s => s
  | Value.arr vs => jsToStringList vs
  | Value.obj _ => "[object Object]"
  | Value.unserializable => "[object Object]"

def jsToStringList : List Value → String
  | [] => ""
  | [v] => v.jsToString
  | v :: vs => v.jsToString ++ "," ++ jsToStringList vs

end

/-- String concatenation with a possibly-absent value: JS renders
`undefined` as the text "undefined". -/
def jsValStr : Option Value → String
  | none => "undefined"
  | some v => v.jsToString

mutual

/-- Whether `JSON.stringify` accepts the value (it throws on the values
modelled by `Value.unserializable`, wherever they are nested). -/
def Value.serializable : Value → Bool
  | Value.arr vs => vListSerializable vs
  | Value.obj fs => vFieldsSerializable fs
  | Value.unserializable => false
  | _ => true

def vListSerializable : List Value → Bool
  | [] => true
  | v :: vs => v.serializable && vListSerializable vs

def vFieldsSerializable : List (String × Value) → Bool
  | [] => true
  | (_, v) :: fs => v.serializable && vFieldsSerializable fs

end

/-- JS `ToNumber` (unary `+`) on the values that occur as a record's
`_ttl` attribute; `none` models `NaN`.  Fractional numeric strings are
outside the integral model. -/
def Value.toNum : Value → Option Int
  | Value.null => some 0
  | Value.bool b => some (if b then 1 else 0)
  | Value.num n => some n
  | Value.str s => if strTrim s = [] then some 0 else intOfChars (strTrim s)
  | Value.arr [] => some 0
  | Value.arr [v] => v.toNum
  | Value.arr (_ :: _ :: _) => none
  | Value.obj _ => none
  | Value.unserializable => none

/-- `+x` where `x` is a property read that may be absent:
`+undefined = NaN`. -/
def toNumber : Option Value → Option Int
  | none => none
  | some v => v.toNum

/-- Modelled from the spec: `Utils.replaceSpaces(str)` from the missing
`lib/utils.js` — each space in the collection name is replaced (the key
namespace does not admit spaces). -/
def replaceSpaces (s : String) : String :=
  String.mk (s.toList.map (fun c => if c = ' ' then '_' else c))

/-- Modelled from the spec: `Utils.sanitize(str)` from the missing
`lib/utils.js` — strips characters unsafe for the underlying key
namespace; whitespace is removed. -/
def sanitize (s : String) : String :=
  String.mk (s.toList.filter (fun c => !c.isWhitespace))

/-- Association-list lookup, modelling a JS object property read. -/
def lookupS {α : Type} : List (String × α) → String → Option α
  | [], _ => none
  | kv :: m, k => if kv.1 = k then some kv.2 else lookupS m k

/-- Association-list upsert, modelling a JS object property write. -/
def upsertS {α : Type} : List (String × α) → String → α → List (String × α)
  | [], k, v => [(k, v)]
  | kv :: m, k, v => if kv.1 = k then (k, v) :: m else kv :: upsertS m k v

/-- Modelled from the spec: `schema.recordKey(collectionName,
primaryKeyAttribute, primaryKeyValue)` from the missing
`lib/database/schema.js` — the deterministic storage key: a fixed
namespace tag, the collection, the attribute and the value rendered as
text, joined by colons (injective in the rendered value within one
collection/attribute, as the spec's bijection invariant requires). -/
def recordKey (name pk : String) (v : Option Value) : String :=
  "waterline:" ++ name ++ ":" ++ pk ++ ":" ++ jsValStr v

/-- One stored entry of the key-value connection: the serialized record
payload (modelled by the JSON document it denotes) and, when the entry
was written with `setex`, the expiry in seconds. -/
structure Entry where
  payload : JsObj
  expire : Option Int

/-- The key-value connection's contents. -/
abbrev Store := List (String × Entry)

/-- `connection.get(key)`: `none` is Redis `nil`. -/
def storeGet (st : Store) (k : String) : Option Entry :=
  lookupS st k

/-- `connection.set` / `connection.setex`: write an entry. -/
def storeSet (st : Store) (k : String) (e : Entry) : Store :=
  upsertS st k e

/-- `connection.del(key)`. -/
def storeDel (st : Store) (k : String) : Store :=
  st.filter (fun kv => kv.1 ≠ k)

/-- `connection.keys(pattern)` — the code only ever passes a pattern of
the form base ++ "*", the Redis glob matching every key that begins with
the base. -/
def keysMatching (st : Store) (pat : String) : List String :=
  (st.map Prod.fst).filter (fun k => List.isPrefixOf pat.toList.dropLast k.toList)

/-- A collection definition handed to `configure`/`define`: the schema
description together with its designated primary-key attribute
(Modelled from the spec: the registry maps a collection name to its
description and its primary-key attribute). -/
structure SchemaDef where
  primaryKey : String
  attributes : JsObj

/-- The adapter's state: the schema registry (`registered` backs
`schema.retrieve`, `primaryOf` backs `schema._primary`), the in-process
`definedCollections` flags (a JS object used as a set of names), and the
key-value connection's contents. -/
structure DB where
  registered : List (String × JsObj)
  primaryOf : List (String × String)
  definedCollections : List (String × Bool)
  store : Store

/-- `this.schema._primary[name]`; an unregistered collection yields JS
`undefined`, which later property reads and string concatenation coerce
to the text "undefined". -/
def primaryKeyName (db : DB) (name : String) : String :=
  (lookupS db.primaryOf name).getD "undefined"

/-- Modelled from the spec: `schema.parse(collectionName, record)`
applies the registered type coercions to a freshly deserialized record;
records in this model are already typed, so the coercion is the
identity. -/
def schemaParse (db : DB) (name : String) (r : JsObj) : JsObj :=
  r

/-- Modelled from the spec: `schema.registerCollection(name, definition)`
from the missing `lib/database/schema.js` — idempotent upsert of the
collection's description and primary-key attribute. -/
def registerCollection (db : DB) (name : String) (d : SchemaDef) : DB :=
  { db with
    registered := upsertS db.registered name d.attributes
    primaryOf := upsertS db.primaryOf name d.primaryKey }

/-- A criteria object; `whereC` is its `where` property (`none` =
absent). -/
structure Criteria where
  whereC : Option JsObj

/-- The errors the adapter reports through completion callbacks. -/
inductive Err where
  | collectionNotRegistered
  | primaryKeyUpdate
  | jsError (msg : String)
  | serializationFailure
  | delFailed (key : String)
deriving DecidableEq

/-- The message of the error `find` reports for unsupported criteria. -/
def findErrMsg : String :=
  "Please use primary key for the criteria, eg. find(\"PRIMARY-KEY\")"

/-- The message of the error `destroy` reports for unsupported criteria. -/
def destroyErrMsg : String :=
  "Please use primary key for the criteria, eg. destroy(\"PRIMARY-KEY\") or destroy() to destroy all"

/-- `Database.prototype.configure(collectionName, schema)`: lower-case
the name and register the schema. -/
def configure (db : DB) (collectionName : String) (d : SchemaDef) : DB :=
  registerCollection db (jsToLower collectionName) d

/-- `Database.prototype.define(collectionName, definition, cb)`: register
the schema under the lower-cased name and flag the collection as defined
under its original spelling; always calls back without error. -/
def define (db : DB) (collectionName : String) (d : SchemaDef) : DB :=
  let db1 := registerCollection db (jsToLower collectionName) d
  { db1 with definedCollections := upsertS db1.definedCollections collectionName true }

/-- The completion of `describe`: an error or a (possibly null)
description. -/
inductive DescribeRes where
  | err (e : Err)
  | ok (desc : Option JsObj)

/-- `Database.prototype.describe(collectionName, cb)`: retrieve the
description for the lower-cased name; error if unregistered; coerce an
empty description to null; coerce to null unless `definedCollections`
holds the original spelling. -/
def describe (db : DB) (collectionName : String) : DescribeRes :=
  let name := jsToLower collectionName
  match lookupS db.registered name with
  | none => DescribeRes.err Err.collectionNotRegistered
  | some desc0 =>
    let desc1 : Option JsObj := if count desc0 = 0 then none else some desc0
    let desc2 : Option JsObj :=
      if (lookupS db.definedCollections collectionName).getD false then desc1 else none
    DescribeRes.ok desc2

/-- `Database.prototype._set(recordKey, data, cb)`: read `+data._ttl`,
serialize the whole record (failing without writing when it is not
serializable), then `set` when the ttl is falsy (absent/NaN/0) or the
sentinel -1, and `setex` with that ttl otherwise. -/
def _set (st : Store) (recKey : String) (data : JsObj) : Option Err × Store :=
  let ttl := toNumber (getField data "_ttl")
  if vFieldsSerializable data then
    if ttl = none ∨ ttl = some 0 ∨ ttl = some (-1) then
      (none, storeSet st recKey ⟨data, none⟩)
    else
      (none, storeSet st recKey ⟨data, ttl⟩)
  else (some Err.serializationFailure, st)

/-- The condition `find` and `destroy` both test: the `where` clause has
the primary-key attribute as an own property, its value is not an array,
is present, and it is the only condition. -/
def validWhere (w : JsObj) (primary : String) : Bool :=
  hasProp w primary && !isArrayV (getField w primary) &&
    present (getField w primary) && count w == 1

/-- The completion of `find`: an error or a list of records. -/
inductive FindRes where
  | err (e : Err)
  | ok (records : List JsObj)

/-- `Database.prototype.find(collectionName, criteria, cb)`: on a
single-condition primary-key-equality criteria, fetch the derived key
and return `[]` when absent or the parsed record otherwise; on any other
criteria shape report the "use primary key" error. -/
def find (db : DB) (collectionName : String) (criteria : Criteria) : FindRes :=
  let name := jsToLower collectionName
  let primary := primaryKeyName db name
  match criteria.whereC with
  | some w =>
    if validWhere w primary then
      let recKey := recordKey name primary (getField w primary)
      match storeGet db.store recKey with
      | none => FindRes.ok []
      | some entry => FindRes.ok [schemaParse db name entry.payload]
    else FindRes.err (Err.jsError findErrMsg)
  | none => FindRes.err (Err.jsError findErrMsg)

/-- The completion of `create`: an error or the re-read record. -/
inductive CreateRes where
  | err (e : Err)
  | ok (record : JsObj)

/-- `Database.prototype.create(collectionName, data, cb)`: derive the key
from `data`'s primary-key value (after lower-casing and space-replacing
the collection name), sanitize the key, write via `_set`, then re-read
and parse the just-written value.  The re-read directly after the write
always finds the entry; the dead absent branch (JS would push a null
record through parse) is modelled as the empty record. -/
def create (db : DB) (collectionName : String) (data : JsObj) : CreateRes × DB :=
  let name := jsToLower collectionName
  let primary := primaryKeyName db name
  let name2 := replaceSpaces name
  let recKey := sanitize (recordKey name2 primary (getField data primary))
  match _set db.store recKey data with
  | (some e, st') => (CreateRes.err e, { db with store := st' })
  | (none, st') =>
    match storeGet st' recKey with
    | some entry => (CreateRes.ok (schemaParse db name2 entry.payload), { db with store := st' })
    | none => (CreateRes.ok [], { db with store := st' })

/-- One invocation of `drop`'s completion callback (`none` is the bare
`cb()`). -/
abbrev DropCall := Option Err

/-- What a call to `drop` produces: every completion-callback invocation
in order, and the connection contents afterwards. -/
structure DropOut where
  calls : List DropCall
  store : Store

/-- `Database.prototype.drop(collectionName, relations, cb)`: scan for
every key beginning with the collection's key base (the record key of
the empty-string value), delete each, and complete.  `relations` is
accepted but unused.  Deletion failures are injected through `delFails`
(the scan itself is modelled as reliable); a failing deletion leaves its
key in place, `async.each` reports the first failure, and the final
handler runs `if (err) cb(err); cb();` — on error the callback fires
twice. -/
def drop (db : DB) (collectionName : String) (relations : Value)
    (delFails : String → Bool) : DropOut :=
  let name := jsToLower collectionName
  let primary := primaryKeyName db name
  let keyBase := recordKey name primary (some (Value.str ""))
  let ks := keysMatching db.store (keyBase ++ "*")
  let st' := db.store.filter (fun kv => !ks.contains kv.1 || delFails kv.1)
  match ks.filter delFails with
  | [] => ⟨[none], st'⟩
  | k :: _ => ⟨[some (Err.delFailed k), none], st'⟩

/-- The completion of `update`: a synchronous TypeError escaping the
method (from dereferencing an absent `criteria.where`), an error through
the callback, or the updated records. -/
inductive UpdateRes where
  | thrown
  | err (e : Err)
  | ok (models : List JsObj)

/-- What a call to `update` produces: the completion, the adapter state
afterwards, and the caller's `values` object afterwards (the JS code
mutates it in place). -/
structure UpdateOut where
  res : UpdateRes
  db : DB
  values : JsObj

/-- The per-record loop of `update`: for each matched record, derive its
key, shallow-merge `values` onto it, write via `_set`, and collect the
merged record; the first failure aborts the rest. -/
def updateRecords (st : Store) (name primary : String) (values : JsObj) :
    List JsObj → Option Err × Store × List JsObj
  | [] => (none, st, [])
  | item :: rest =>
    let key := recordKey name primary (getField item primary)
    let updatedValues := extendObj item values
    match _set st key updatedValues with
    | (some e, st') => (some e, st', [])
    | (none, st') =>
      match updateRecords st' name primary values rest with
      | (e?, st'', models) => (e?, st'', updatedValues :: models)

/-- The tail of `update` after the primary-key guard: resolve the
criteria through `find`, then run the per-record merge loop. -/
def updateMain (db : DB) (name primary : String) (criteria : Criteria)
    (values : JsObj) : UpdateOut :=
  match find db name criteria with
  | FindRes.err e => ⟨UpdateRes.err e, db, values⟩
  | FindRes.ok records =>
    match updateRecords db.store name primary values records with
    | (some e, st', _) => ⟨UpdateRes.err e, { db with store := st' }, values⟩
    | (none, st', models) => ⟨UpdateRes.ok models, { db with store := st' }, values⟩

/-- `Database.prototype.update(collectionName, criteria, values, cb)`:
reject with the primary-key-update error when `values` carries a present
primary-key value strictly different from the criteria's (dereferencing
an absent `criteria.where` throws); otherwise delete the primary key
from `values` and run resolve-then-merge. -/
def update (db : DB) (collectionName : String) (criteria : Criteria)
    (values : JsObj) : UpdateOut :=
  let name := jsToLower collectionName
  let primary := primaryKeyName db name
  if present (getField values primary) then
    match criteria.whereC with
    | none => ⟨UpdateRes.thrown, db, values⟩
    | some w =>
      if optValBeq (getField values primary) (getField w primary) then
        updateMain db name primary criteria (delField values primary)
      else ⟨UpdateRes.err Err.primaryKeyUpdate, db, values⟩
  else
    updateMain db name primary criteria (delField values primary)

/-- One invocation of `destroy`'s completion callback: an error, a record
list, the raw pre-deletion value, or the bare `cb()` a delegated `drop`
fires. -/
inductive DestroyCb where
  | err (e : Err)
  | records (rs : List JsObj)
  | raw (r : JsObj)
  | done

/-- `Database.prototype.destroy(collectionName, criteria, cb)`: on a
single-condition primary-key-equality criteria, fetch the record,
return `[]` when absent, otherwise delete the key and return the raw
pre-deletion value; on a condition-free `where`, delegate to `drop`
(passing `cb` straight through, double fire included); otherwise report
the "use primary key ... destroy" error. -/
def destroy (db : DB) (collectionName : String) (criteria : Criteria)
    (delFails : String → Bool) : List DestroyCb × Store :=
  let name := jsToLower collectionName
  let primary := primaryKeyName db name
  let dropCalls : DropOut → List DestroyCb × Store := fun d =>
    (d.calls.map (fun c => match c with
      | some e => DestroyCb.err e
      | none => DestroyCb.done), d.store)
  match criteria.whereC with
  | some w =>
    if validWhere w primary then
      let recKey := recordKey name primary (getField w primary)
      match storeGet db.store recKey with
      | none => ([DestroyCb.records []], db.store)
      | some entry =>
        if delFails recKey then ([DestroyCb.err (Err.delFailed recKey)], db.store)
        else ([DestroyCb.raw entry.payload], storeDel db.store recKey)
    else if count w = 0 then
      dropCalls (drop db collectionName (Value.str "") delFails)
    else ([DestroyCb.err (Err.jsError destroyErrMsg)], db.store)
  | none =>
    dropCalls (drop db collectionName (Value.str "") delFails)

/-! Helper lemmas about the store and object primitives. -/

theorem lookupS_upsertS_self {α : Type} (m : List (String × α)) (k : String) (v : α) :
    lookupS (upsertS m k v) k = some v := by
  induction m with
  | nil => simp [upsertS, lookupS]
  | cons kv m ih =>
    by_cases h : kv.1 = k
    · simp [upsertS, h, lookupS]
    · simp [upsertS, h, lookupS, ih]

theorem lookupS_upsertS_ne {α : Type} (m : List (String × α)) (k k' : String) (v : α)
    (h : k ≠ k') : lookupS (upsertS m k v) k' = lookupS m k' := by
  induction m with
  | nil => simp [upsertS, lookupS, h]
  | cons kv m ih =>
    by_cases hk : kv.1 = k
    · simp [upsertS, hk, lookupS, h, ih]
    · simp [upsertS, hk, lookupS, ih]

theorem storeGet_storeSet_self (st : Store) (k : String) (e : Entry) :
    storeGet (storeSet st k e) k = some e :=
  lookupS_upsertS_self st k e

theorem primaryKeyName_setStore (db : DB) (st : Store) (n : String) :
    primaryKeyName { db with store := st } n = primaryKeyName db n := rfl

theorem getField_delField_self (o : JsObj) (k : String) :
    getField (delField o k) k = none := by
  induction o with
  | nil => simp [delField, getField]
  | cons kv o ih =>
    by_cases h : kv.1 = k
    · simpa [delField, List.filter_cons, h] using ih
    · simpa [delField, List.filter_cons, h, getField] using ih

theorem getField_setField_ne (o : JsObj) (k k' : String) (v : Value) (h : k' ≠ k) :
    getField (setField o k' v) k = getField o k := by
  induction o with
  | nil => simp [setField, getField, h]
  | cons kv o ih =>
    by_cases hk : kv.1 = k'
    · simp [setField, hk, getField, h, ih]
    · simp [setField, hk, getField, ih]

theorem getField_extendObj_absent (s : JsObj) (k : String) (h : getField s k = none) :
    ∀ t : JsObj, getField (extendObj t s) k = getField t k := by
  induction s with
  | nil => intro t; simp [extendObj]
  | cons kv s ih =>
    intro t
    have hne : kv.1 ≠ k := by
      intro he
      simp [getField, he] at h
    have hrest : getField s k = none := by
      simpa [getField, hne] using h
    have : extendObj t (kv :: s) = extendObj (setField t kv.1 kv.2) s := rfl
    rw [this, ih hrest, getField_setField_ne _ _ _ _ hne]

/-! Helper lemmas about the operations' error and result shapes. -/

theorem set_ok (st : Store) (k : String) (data : JsObj)
    (h : vFieldsSerializable data = true) :
    ∃ exp, _set st k data = (none, storeSet st k ⟨data, exp⟩) := by
  unfold _set
  rw [h]
  by_cases hc : toNumber (getField data "_ttl") = none ∨
      toNumber (getField data "_ttl") = some 0 ∨
      toNumber (getField data "_ttl") = some (-1)
  · exact ⟨none, by simp [hc]⟩
  · exact ⟨toNumber (getField data "_ttl"), by simp [hc]⟩

theorem set_err_shape (st : Store) (k : String) (data : JsObj) (e : Err)
    (h : (_set st k data).1 = some e) : e = Err.serializationFailure := by
  unfold _set at h
  by_cases hs : vFieldsSerializable data = true
  · rw [hs] at h
    by_cases hc : toNumber (getField data "_ttl") = none ∨
        toNumber (getField data "_ttl") = some 0 ∨
        toNumber (getField data "_ttl") = some (-1) <;> simp [hc] at h
  · simp [eq_false_of_ne_true hs] at h
    exact h.symm

theorem find_err_shape (db : DB) (cn : String) (c : Criteria) (e : Err)
    (h : find db cn c = FindRes.err e) : e = Err.jsError findErrMsg := by
  cases hw : c.whereC with
  | none =>
    simp only [find, hw] at h
    cases h
    rfl
  | some w =>
    simp only [find, hw] at h
    split at h
    · split at h <;> cases h
    · cases h; rfl

theorem updateRecords_err_shape (st : Store) (name primary : String) (values : JsObj)
    (l : List JsObj) (e : Err)
    (h : (updateRecords st name primary values l).1 = some e) :
    e = Err.serializationFailure := by
  induction l generalizing st with
  | nil => simp [updateRecords] at h
  | cons item rest ih =>
    simp only [updateRecords] at h
    split at h
    · rename_i e' st' hs
      cases h
      exact set_err_shape _ _ _ _ (by rw [hs])
    · rename_i st' hs
      exact ih st' h

theorem updateMain_values_eq (db : DB) (name primary : String) (c : Criteria)
    (values : JsObj) : (updateMain db name primary c values).values = values := by
  unfold updateMain
  cases find db name c with
  | err e => rfl
  | ok records =>
    dsimp only
    rcases h : updateRecords db.store name primary values records with ⟨e?, st', models⟩
    cases e? <;> rfl

theorem updateMain_res_ne_pkUpdate (db : DB) (name primary : String) (c : Criteria)
    (values : JsObj) :
    (updateMain db name primary c values).res ≠ UpdateRes.err Err.primaryKeyUpdate := by
  unfold updateMain
  cases hf : find db name c with
  | err e =>
    intro h
    cases h
    have := find_err_shape db name c _ hf
    cases this
  | ok records =>
    dsimp only
    rcases h : updateRecords db.store name primary values records with ⟨e?, st', models⟩
    cases e? with
    | some e' =>
      intro hcon
      cases hcon
      have := updateRecords_err_shape db.store name primary values records _ (by rw [h])
      cases this
    | none =>
      intro hcon
      cases hcon

theorem validWhere_singleton (p : String) (v : Value)
    (hpres : present (some v) = true) (harr : isArrayV (some v) = false) :
    validWhere [(p, v)] p = true := by
  simp [validWhere, hasProp, getField, count, hpres, harr]

/-! The CRUD operations read only the `primaryOf` and `store` components
of the adapter state, never the `registered` descriptions or the
`definedCollections` flags; the following congruence lemmas record
that. -/

theorem find_agree (db1 db2 : DB) (hp : db1.primaryOf = db2.primaryOf)
    (hs : db1.store = db2.store) (cn : String) (c : Criteria) :
    find db1 cn c = find db2 cn c := by
  cases db1
  cases db2
  dsimp only at hp hs
  subst hp
  subst hs
  rfl

theorem create_agree (db1 db2 : DB) (hp : db1.primaryOf = db2.primaryOf)
    (hs : db1.store = db2.store) (cn : String) (data : JsObj) :
    (create db1 cn data).1 = (create db2 cn data).1 ∧
    (create db1 cn data).2.store = (create db2 cn data).2.store := by
  cases db1
  cases db2
  dsimp only at hp hs
  subst hp
  subst hs
  refine ⟨?_, ?_⟩ <;>
    dsimp only [create, primaryKeyName, schemaParse] <;>
    split <;>
    first
      | rfl
      | (split <;> rfl)

theorem update_agree (db1 db2 : DB) (hp : db1.primaryOf = db2.primaryOf)
    (hs : db1.store = db2.store) (cn : String) (c : Criteria) (vals : JsObj) :
    (update db1 cn c vals).res = (update db2 cn c vals).res ∧
    (update db1 cn c vals).db.store = (update db2 cn c vals).db.store ∧
    (update db1 cn c vals).values = (update db2 cn c vals).values := by
  cases db1
  cases db2
  dsimp only at hp hs
  subst hp
  subst hs
  refine ⟨?_, ?_, ?_⟩ <;>
    dsimp only [update, updateMain, find, primaryKeyName, schemaParse] <;>
    (repeat' split) <;>
    rfl

theorem destroy_agree (db1 db2 : DB) (hp : db1.primaryOf = db2.primaryOf)
    (hs : db1.store = db2.store) (cn : String) (c : Criteria) (f : String → Bool) :
    destroy db1 cn c f = destroy db2 cn c f := by
  cases db1
  cases db2
  dsimp only at hp hs
  subst hp
  subst hs
  rfl

theorem drop_agree (db1 db2 : DB) (hp : db1.primaryOf = db2.primaryOf)
    (hs : db1.store = db2.store) (cn : String) (rel : Value) (f : String → Bool) :
    drop db1 cn rel f = drop db2 cn rel f := by
  cases db1
  cases db2
  dsimp only at hp hs
  subst hp
  subst hs
  rfl

theorem define_components_agree (db : DB) (N M : String) (d : SchemaDef)
    (h : jsToLower N = jsToLower M) :
    (define db N d).primaryOf = (define db M d).primaryOf ∧
    (define db N d).store = (define db M d).store ∧
    (define db N d).registered = (define db M d).registered := by
  simp [define, registerCollection, h]

/-! Concrete fixtures for the witnesses and counterexamples below: a
"user" collection with primary key "id" and one stored record. -/

def emptyDB : DB := ⟨[], [], [], []⟩

def userDef : SchemaDef := ⟨"id", [("type", Value.str "string")]⟩

def userDB : DB := define emptyDB "user" userDef

def annData : JsObj := [("id", Value.str "u1"), ("name", Value.str "Ann")]

def annDB : DB := (create userDB "user" annData).2

/-! The claims. -/

/-- C2: when any single deletion performed by `drop(collectionName,
relations)` fails, `drop` reports the error to its completion callback
and then also invokes the completion callback again unconditionally —
the error invocation and the success invocation fire in sequence within
the same `drop` call. -/
theorem drop_double_completion_on_error (db : DB) (cn : String) (rel : Value)
    (delFails : String → Bool)
    (h : ∃ k ∈ keysMatching db.store
        (recordKey (jsToLower cn) (primaryKeyName db (jsToLower cn)) (some (Value.str "")) ++ "*"),
        delFails k = true) :
    ∃ e, (drop db cn rel delFails).calls = [some e, none] := by
  obtain ⟨k, hk, hf⟩ := h
  simp only [drop]
  cases hfk : (keysMatching db.store
      (recordKey (jsToLower cn) (primaryKeyName db (jsToLower cn)) (some (Value.str "")) ++ "*")).filter
      delFails with
  | nil =>
    exfalso
    have hmem : k ∈ (keysMatching db.store
        (recordKey (jsToLower cn) (primaryKeyName db (jsToLower cn)) (some (Value.str "")) ++ "*")).filter
        delFails := List.mem_filter.mpr ⟨hk, hf⟩
    rw [hfk] at hmem
    cases hmem
  | cons k' t => exact ⟨Err.delFailed k', rfl⟩

/-- C2 witness: a store holding one user record whose deletion is made to
fail; `drop` fires its callback with the error and then again bare. -/
theorem drop_double_completion_on_error_witness :
    ∃ e, (drop annDB "user" (Value.str "")
        (fun k => k == "waterline:user:id:u1")).calls = [some e, none] :=
  drop_double_completion_on_error annDB "user" (Value.str "")
    (fun k => k == "waterline:user:id:u1")
    ⟨"waterline:user:id:u1", by decide⟩

/-- C6: `_set(key, data)` performs a plain (non-expiring) write exactly
when `+data._ttl` is absent, zero/falsy (NaN included), or the sentinel
-1; otherwise it writes with expiry set to that ttl in seconds; the ttl
attribute remains part of the stored payload in all cases; an
unserializable record fails with the serialization error without
writing. -/
theorem set_ttl_spec (st : Store) (k : String) (data : JsObj) :
    (vFieldsSerializable data = false →
      _set st k data = (some Err.serializationFailure, st)) ∧
    (vFieldsSerializable data = true →
      ((toNumber (getField data "_ttl") = none ∨ toNumber (getField data "_ttl") = some 0 ∨
          toNumber (getField data "_ttl") = some (-1)) →
        _set st k data = (none, storeSet st k ⟨data, none⟩)) ∧
      (¬(toNumber (getField data "_ttl") = none ∨ toNumber (getField data "_ttl") = some 0 ∨
          toNumber (getField data "_ttl") = some (-1)) →
        _set st k data = (none, storeSet st k ⟨data, toNumber (getField data "_ttl")⟩)) ∧
      (storeGet (_set st k data).2 k).map Entry.payload = some data) := by
  refine ⟨fun hs => ?_, fun hs => ⟨fun hc => ?_, fun hc => ?_, ?_⟩⟩
  · simp [_set, hs]
  · simp [_set, hs, hc]
  · simp only [_set, hs, if_true, if_neg hc]
  · obtain ⟨exp, hset⟩ := set_ok st k data hs
    rw [hset]
    simp [storeGet_storeSet_self]

/-- C6 witness: a record with `_ttl = 5` is written with expiry 5, and
the ttl attribute is part of the stored payload. -/
theorem set_ttl_spec_witness :
    _set [] "k1" [("id", Value.str "x"), ("_ttl", Value.num 5)] =
      (none, storeSet [] "k1"
        ⟨[("id", Value.str "x"), ("_ttl", Value.num 5)],
         toNumber (getField [("id", Value.str "x"), ("_ttl", Value.num 5)] "_ttl")⟩) :=
  ((set_ttl_spec [] "k1" [("id", Value.str "x"), ("_ttl", Value.num 5)]).2
    (by decide)).2.1 (by decide)

/-- C10: when `values` carries a present primary-key attribute and the
criteria has no `where` property, `update` throws a synchronous
exception (from dereferencing `criteria.where`) instead of reporting an
error through the completion callback, leaving state and `values`
untouched. -/
theorem update_throw_on_missing_where (db : DB) (cn : String) (values : JsObj)
    (h : present (getField values (primaryKeyName db (jsToLower cn))) = true) :
    update db cn ⟨none⟩ values = ⟨UpdateRes.thrown, db, values⟩ := by
  simp [update, h]

/-- C10 witness: updating with `values.id` present and a criteria without
`where` throws. -/
theorem update_throw_on_missing_where_witness :
    update userDB "user" ⟨none⟩ [("id", Value.str "u2")] =
      ⟨UpdateRes.thrown, userDB, [("id", Value.str "u2")]⟩ :=
  update_throw_on_missing_where userDB "user" [("id", Value.str "u2")] (by decide)

/-- C9: whenever `update` passes the primary-key guard (the `values`
primary key is absent/non-present, or equals the criteria's), it deletes
the primary-key attribute from the caller's `values` object — a side
effect visible to the caller — even when the operation subsequently
fails, for example because `find` rejects the criteria. -/
theorem update_mutates_caller_values (db : DB) (cn : String) (criteria : Criteria)
    (values : JsObj)
    (h : present (getField values (primaryKeyName db (jsToLower cn))) = false ∨
         ∃ w, criteria.whereC = some w ∧
           optValBeq (getField values (primaryKeyName db (jsToLower cn)))
             (getField w (primaryKeyName db (jsToLower cn))) = true) :
    (update db cn criteria values).values =
      delField values (primaryKeyName db (jsToLower cn)) := by
  by_cases hp : present (getField values (primaryKeyName db (jsToLower cn))) = true
  · rcases h with h | ⟨w, hw, hbeq⟩
    · rw [h] at hp
      cases hp
    · simp only [update, hp, hw, hbeq, if_true]
      exact updateMain_values_eq _ _ _ _ _
  · simp only [update, if_neg hp]
    exact updateMain_values_eq _ _ _ _ _

/-- C9 witness: an update whose criteria `find` rejects (two conditions)
still deletes `id` from the caller's `values`. -/
theorem update_mutates_caller_values_witness :
    (update userDB "user" ⟨some [("id", Value.str "u1"), ("name", Value.str "Ann")]⟩
        [("id", Value.str "u1"), ("role", Value.str "x")]).values =
      delField [("id", Value.str "u1"), ("role", Value.str "x")] "id" ∧
    (update userDB "user" ⟨some [("id", Value.str "u1"), ("name", Value.str "Ann")]⟩
        [("id", Value.str "u1"), ("role", Value.str "x")]).res =
      UpdateRes.err (Err.jsError findErrMsg) :=
  ⟨update_mutates_caller_values userDB "user"
      ⟨some [("id", Value.str "u1"), ("name", Value.str "Ann")]⟩
      [("id", Value.str "u1"), ("role", Value.str "x")]
      (Or.inr ⟨[("id", Value.str "u1"), ("name", Value.str "Ann")], rfl, by decide⟩),
   rfl⟩

/-- C7: `describe` fails with the collection-not-registered error exactly
when the registry holds nothing for the lower-cased name; otherwise it
returns null (not an empty mapping) when the registered description is
empty, and returns null whenever the collection was not flagged as
defined by `define` in this process (the flag is read under the spelling
`describe` received). -/
theorem describe_spec (db : DB) (cn : String) :
    (lookupS db.registered (jsToLower cn) = none →
      describe db cn = DescribeRes.err Err.collectionNotRegistered) ∧
    (∀ desc, lookupS db.registered (jsToLower cn) = some desc →
      describe db cn = DescribeRes.ok
        (if (lookupS db.definedCollections cn).getD false then
          (if count desc = 0 then none else some desc)
        else none)) := by
  refine ⟨fun h => ?_, fun desc h => ?_⟩
  · simp [describe, h]
  · simp only [describe, h]

/-- C7 witness: describing the defined, non-empty "user" collection. -/
theorem describe_spec_witness :
    describe userDB "user" = DescribeRes.ok
      (if (lookupS userDB.definedCollections "user").getD false then
        (if count [("type", Value.str "string")] = 0 then none
         else some [("type", Value.str "string")])
      else none) :=
  (describe_spec userDB "user").2 [("type", Value.str "string")] rfl

/-- C4: `find` succeeds only on a criteria whose `where` holds exactly
one condition, on the primary-key attribute, with a present non-array
value: it then returns the empty sequence when the key is absent and
otherwise the one deserialized, parsed record; every other criteria
shape (two-condition clauses included) is rejected with the explicit
"use primary key" error, with no scanning or filtering. -/
theorem find_criteria_spec (db : DB) (cn : String) (criteria : Criteria) :
    (∀ w, criteria.whereC = some w →
      validWhere w (primaryKeyName db (jsToLower cn)) = true →
      find db cn criteria =
        (match storeGet db.store (recordKey (jsToLower cn) (primaryKeyName db (jsToLower cn))
            (getField w (primaryKeyName db (jsToLower cn)))) with
         | none => FindRes.ok []
         | some entry => FindRes.ok [schemaParse db (jsToLower cn) entry.payload])) ∧
    ((∀ w, criteria.whereC = some w →
        validWhere w (primaryKeyName db (jsToLower cn)) = false) →
      find db cn criteria = FindRes.err (Err.jsError findErrMsg)) := by
  refine ⟨fun w hw hv => ?_, fun hall => ?_⟩
  · simp only [find, hw, hv, if_true]
  · cases hw : criteria.whereC with
    | none => simp [find, hw]
    | some w =>
      have hv := hall w hw
      simp [find, hw, hv]

/-- C4 witness: the spec's scenario — a two-condition where clause is
rejected with the explicit error. -/
theorem find_criteria_spec_witness :
    find userDB "user" ⟨some [("id", Value.str "u1"), ("name", Value.str "Ann")]⟩ =
      FindRes.err (Err.jsError findErrMsg) :=
  (find_criteria_spec userDB "user"
      ⟨some [("id", Value.str "u1"), ("name", Value.str "Ann")]⟩).2
    (fun w hw => by cases hw; decide)

/-- C5: `destroy` has exactly three behaviors: on a single
primary-key-equality `where` (and a healthy deletion) it fetches the
record, returns the empty sequence when the key is absent, and otherwise
deletes the key and returns the raw pre-deletion fetched value; on a
zero-condition `where` it delegates to `drop` (destroy-all); on any
other shape it reports the same "use primary key" style error as
`find`. -/
theorem destroy_spec (db : DB) (cn : String) (criteria : Criteria)
    (delFails : String → Bool) :
    (∀ w, criteria.whereC = some w →
      validWhere w (primaryKeyName db (jsToLower cn)) = true →
      delFails (recordKey (jsToLower cn) (primaryKeyName db (jsToLower cn))
        (getField w (primaryKeyName db (jsToLower cn)))) = false →
      destroy db cn criteria delFails =
        (match storeGet db.store (recordKey (jsToLower cn) (primaryKeyName db (jsToLower cn))
            (getField w (primaryKeyName db (jsToLower cn)))) with
         | none => ([DestroyCb.records []], db.store)
         | some entry =>
            ([DestroyCb.raw entry.payload],
             storeDel db.store (recordKey (jsToLower cn) (primaryKeyName db (jsToLower cn))
               (getField w (primaryKeyName db (jsToLower cn))))))) ∧
    (∀ w, criteria.whereC = some w → count w = 0 →
      destroy db cn criteria delFails =
        ((drop db cn (Value.str "") delFails).calls.map
          (fun c => match c with
            | some e => DestroyCb.err e
            | none => DestroyCb.done),
         (drop db cn (Value.str "") delFails).store)) ∧
    (∀ w, criteria.whereC = some w →
      validWhere w (primaryKeyName db (jsToLower cn)) = false → count w ≠ 0 →
      destroy db cn criteria delFails =
        ([DestroyCb.err (Err.jsError destroyErrMsg)], db.store)) := by
  refine ⟨fun w hw hv hd => ?_, fun w hw hc => ?_, fun w hw hv hc => ?_⟩
  · simp only [destroy, hw, hv, if_true]
    cases hg : storeGet db.store (recordKey (jsToLower cn) (primaryKeyName db (jsToLower cn))
        (getField w (primaryKeyName db (jsToLower cn)))) with
    | none => rfl
    | some entry => simp [hd]
  · have hnil : w = [] := List.length_eq_zero.mp hc
    subst hnil
    have hv : validWhere [] (primaryKeyName db (jsToLower cn)) = false := by
      simp [validWhere, hasProp, getField]
    simp [destroy, hw, hv, count]
  · simp [destroy, hw, hv, hc]

/-- C5 witness: destroying the stored record by primary key returns the
raw pre-deletion value and removes the key. -/
theorem destroy_spec_witness :
    destroy annDB "user" ⟨some [("id", Value.str "u1")]⟩ (fun _ => false) =
      (match storeGet annDB.store (recordKey (jsToLower "user")
          (primaryKeyName annDB (jsToLower "user"))
          (getField [("id", Value.str "u1")] (primaryKeyName annDB (jsToLower "user")))) with
       | none => ([DestroyCb.records []], annDB.store)
       | some entry =>
          ([DestroyCb.raw entry.payload],
           storeDel annDB.store (recordKey (jsToLower "user")
             (primaryKeyName annDB (jsToLower "user"))
             (getField [("id", Value.str "u1")] (primaryKeyName annDB (jsToLower "user")))))) :=
  (destroy_spec annDB "user" ⟨some [("id", Value.str "u1")]⟩ (fun _ => false)).1
    [("id", Value.str "u1")] rfl (by decide) rfl

/-- C3: with a `where` clause present, `update` fails with the
primary-key-update-forbidden error exactly when `values` carries a
present primary-key value strictly different from the criteria's; when
the two agree the call is accepted (that error cannot occur) and the
primary-key attribute is removed from `values` before merging, so the
merged record written for any matched item keeps that item's primary-key
value unchanged. -/
theorem update_pk_guard_spec (db : DB) (cn : String) (criteria : Criteria)
    (values : JsObj) (w : JsObj) (hw : criteria.whereC = some w) :
    ((update db cn criteria values).res = UpdateRes.err Err.primaryKeyUpdate ↔
      (present (getField values (primaryKeyName db (jsToLower cn))) = true ∧
       optValBeq (getField values (primaryKeyName db (jsToLower cn)))
         (getField w (primaryKeyName db (jsToLower cn))) = false)) ∧
    (optValBeq (getField values (primaryKeyName db (jsToLower cn)))
        (getField w (primaryKeyName db (jsToLower cn))) = true →
      update db cn criteria values =
        updateMain db (jsToLower cn) (primaryKeyName db (jsToLower cn)) criteria
          (delField values (primaryKeyName db (jsToLower cn)))) ∧
    (∀ item : JsObj,
      getField (extendObj item (delField values (primaryKeyName db (jsToLower cn))))
          (primaryKeyName db (jsToLower cn)) =
        getField item (primaryKeyName db (jsToLower cn))) := by
  refine ⟨⟨fun hres => ?_, fun hcon => ?_⟩, fun hbeq => ?_, fun item => ?_⟩
  · by_cases hp : present (getField values (primaryKeyName db (jsToLower cn))) = true
    · by_cases hbeq : optValBeq (getField values (primaryKeyName db (jsToLower cn)))
          (getField w (primaryKeyName db (jsToLower cn))) = true
      · exfalso
        have hupd : update db cn criteria values =
            updateMain db (jsToLower cn) (primaryKeyName db (jsToLower cn)) criteria
              (delField values (primaryKeyName db (jsToLower cn))) := by
          simp only [update, hp, hw, hbeq, if_true]
        rw [hupd] at hres
        exact updateMain_res_ne_pkUpdate _ _ _ _ _ hres
      · exact ⟨hp, eq_false_of_ne_true hbeq⟩
    · exfalso
      have hupd : update db cn criteria values =
          updateMain db (jsToLower cn) (primaryKeyName db (jsToLower cn)) criteria
            (delField values (primaryKeyName db (jsToLower cn))) := by
        simp only [update, if_neg hp]
      rw [hupd] at hres
      exact updateMain_res_ne_pkUpdate _ _ _ _ _ hres
  · obtain ⟨hp, hbeq⟩ := hcon
    simp [update, hp, hw, hbeq]
  · by_cases hp : present (getField values (primaryKeyName db (jsToLower cn))) = true
    · simp only [update, hp, hw, hbeq, if_true]
    · simp only [update, if_neg hp]
  · exact getField_extendObj_absent _ _
      (getField_delField_self values (primaryKeyName db (jsToLower cn))) item

/-- C3 witness: an update whose `values` repeats the criteria's
primary-key value is accepted and proceeds to the merge phase with the
primary key removed from `values`. -/
theorem update_pk_guard_spec_witness :
    update annDB "user" ⟨some [("id", Value.str "u1")]⟩
        [("id", Value.str "u1"), ("name", Value.str "Annie")] =
      updateMain annDB (jsToLower "user") (primaryKeyName annDB (jsToLower "user"))
        ⟨some [("id", Value.str "u1")]⟩
        (delField [("id", Value.str "u1"), ("name", Value.str "Annie")]
          (primaryKeyName annDB (jsToLower "user"))) :=
  (update_pk_guard_spec annDB "user" ⟨some [("id", Value.str "u1")]⟩
      [("id", Value.str "u1"), ("name", Value.str "Annie")]
      [("id", Value.str "u1")] rfl).2.1 (by decide)

/-- C1 counterexample: with the primary-key value "u 1" (it contains a
space), `create` succeeds and returns the record, but the following
`find` with that same primary-key value returns the empty sequence, not
the created record — the storage key is sanitized on the create path
only. -/
theorem create_find_roundtrip_cex :
    (create userDB "user" [("id", Value.str "u 1"), ("name", Value.str "Ann")]).1 =
      CreateRes.ok [("id", Value.str "u 1"), ("name", Value.str "Ann")] ∧
    find (create userDB "user" [("id", Value.str "u 1"), ("name", Value.str "Ann")]).2
      "user" ⟨some [("id", Value.str "u 1")]⟩ = FindRes.ok [] :=
  ⟨rfl, rfl⟩

/-- C1 amended: the create-then-find round trip returns exactly one
record equal to the created record for every valid (collection,
primary-key value) pair whose derived storage key the create-path
sanitization leaves unchanged; a primary-key value whose characters the
sanitizer strips (for example one containing a space) does not round
trip, as the counterexample shows. -/
theorem create_then_find_roundtrip (db : DB) (cn : String) (data : JsObj) (v : Value)
    (hpk : getField data (primaryKeyName db (jsToLower cn)) = some v)
    (hpres : present (some v) = true)
    (harr : isArrayV (some v) = false)
    (hser : vFieldsSerializable data = true)
    (hkey : sanitize (recordKey (replaceSpaces (jsToLower cn))
          (primaryKeyName db (jsToLower cn)) (some v)) =
        recordKey (jsToLower cn) (primaryKeyName db (jsToLower cn)) (some v)) :
    (create db cn data).1 = CreateRes.ok data ∧
    find (create db cn data).2 cn ⟨some [(primaryKeyName db (jsToLower cn), v)]⟩ =
      FindRes.ok [data] := by
  obtain ⟨exp, hset⟩ := set_ok db.store
    (recordKey (jsToLower cn) (primaryKeyName db (jsToLower cn)) (some v)) data hser
  have hc : create db cn data =
      (CreateRes.ok data,
       { db with store := (storeSet db.store
           (recordKey (jsToLower cn) (primaryKeyName db (jsToLower cn)) (some v))
           ⟨data, exp⟩) }) := by
    simp only [create, hpk, hkey, hset, storeGet_storeSet_self, schemaParse]
  rw [hc]
  refine ⟨rfl, ?_⟩
  have hval := validWhere_singleton (primaryKeyName db (jsToLower cn)) v hpres harr
  have hgf : getField [(primaryKeyName db (jsToLower cn), v)]
      (primaryKeyName db (jsToLower cn)) = some v := by
    simp [getField]
  simp only [find, primaryKeyName_setStore, hval, if_true, hgf, storeGet_storeSet_self,
    schemaParse]

/-- C1 witness: the ordinary value "u1" (nothing to sanitize) round
trips. -/
theorem create_then_find_roundtrip_witness :
    (create userDB "user" annData).1 = CreateRes.ok annData ∧
    find (create userDB "user" annData).2 "user"
      ⟨some [(primaryKeyName userDB (jsToLower "user"), Value.str "u1")]⟩ =
      FindRes.ok [annData] :=
  create_then_find_roundtrip userDB "user" annData (Value.str "u1")
    rfl (by decide) rfl (by decide) rfl

/-- C8 counterexample: define("User") followed by describe("user")
returns null, while define("user") followed by describe("user") returns
the description — the two lower-case-equal spellings do not behave
identically, because the defined-collections flag is keyed by the exact
spelling. -/
theorem define_describe_case_cex :
    describe (define emptyDB "User" userDef) "user" = DescribeRes.ok none ∧
    describe (define emptyDB "user" userDef) "user" =
      DescribeRes.ok (some [("type", Value.str "string")]) :=
  ⟨rfl, rfl⟩

/-- C8 amended: collection-name spellings equal after lower-casing are
interchangeable for registration and for every CRUD operation (find,
create, update, destroy and drop observe identical results and stores),
and describe(M) after define(N, d) never fails with
collection-not-registered; but describe's defined flag is keyed by the
exact spelling, so with no prior define of the spelling M and N distinct
from M, describe(M) after define(N, d) returns null even where the
same-spelling sequence returns the description (see the
counterexample). -/
theorem case_insensitive_names (db : DB) (N M : String) (d : SchemaDef)
    (h : jsToLower N = jsToLower M) :
    (∀ cn c, find (define db N d) cn c = find (define db M d) cn c) ∧
    (∀ cn data,
      (create (define db N d) cn data).1 = (create (define db M d) cn data).1 ∧
      (create (define db N d) cn data).2.store = (create (define db M d) cn data).2.store) ∧
    (∀ cn c vals,
      (update (define db N d) cn c vals).res = (update (define db M d) cn c vals).res ∧
      (update (define db N d) cn c vals).db.store =
        (update (define db M d) cn c vals).db.store ∧
      (update (define db N d) cn c vals).values = (update (define db M d) cn c vals).values) ∧
    (∀ cn c f, destroy (define db N d) cn c f = destroy (define db M d) cn c f) ∧
    (∀ cn rel f, drop (define db N d) cn rel f = drop (define db M d) cn rel f) ∧
    describe (define db N d) M ≠ DescribeRes.err Err.collectionNotRegistered ∧
    (lookupS db.definedCollections M = none → N ≠ M →
      describe (define db N d) M = DescribeRes.ok none) := by
  obtain ⟨hp, hs, hr⟩ := define_components_agree db N M d h
  have hreg : lookupS (define db N d).registered (jsToLower M) = some d.attributes := by
    simp [define, registerCollection, ← h, lookupS_upsertS_self]
  refine ⟨fun cn c => find_agree _ _ hp hs cn c,
          fun cn data => create_agree _ _ hp hs cn data,
          fun cn c vals => update_agree _ _ hp hs cn c vals,
          fun cn c f => destroy_agree _ _ hp hs cn c f,
          fun cn rel f => drop_agree _ _ hp hs cn rel f,
          ?_, ?_⟩
  · intro hcon
    simp only [describe, hreg] at hcon
    cases hcon
  · intro hflag hne
    have hdc : lookupS (define db N d).definedCollections M = none := by
      have : (define db N d).definedCollections = upsertS db.definedCollections N true := by
        simp [define, registerCollection]
      rw [this, lookupS_upsertS_ne _ _ _ _ hne]
      exact hflag
    simp [describe, hreg, hdc]

/-- C8 witness: "User" and "user" coincide for find, and describe("user")
after define("User") returns null. -/
theorem case_insensitive_names_witness :
    find (define emptyDB "User" userDef) "user" ⟨some [("id", Value.str "u1")]⟩ =
      find (define emptyDB "user" userDef) "user" ⟨some [("id", Value.str "u1")]⟩ ∧
    describe (define emptyDB "User" userDef) "user" = DescribeRes.ok none :=
  ⟨(case_insensitive_names emptyDB "User" "user" userDef rfl).1 "user"
      ⟨some [("id", Value.str "u1")]⟩,
   (case_insensitive_names emptyDB "User" "user" userDef rfl).2.2.2.2.2.2 rfl
      (by decide)⟩

end SailsRedis
